import Mathlib

set_option synthInstance.maxSize 1000

/-
Verification development for the bilinear resampling module
`pyresample/bilinear/__init__.py` (irregular-grid bilinear interpolation).

The numeric model is an exact-rational idealisation of IEEE-754 double
arithmetic: a scalar is a finite rational, one of the two infinities, or
NaN, and every operation follows the IEEE special-value rules (NaN
propagation, signed infinities, comparisons that are false on NaN).  The
module under verification runs all of its arithmetic element-wise under
`np.errstate(...='ignore')`, so invalid operations silently produce NaN or
infinities exactly as modelled here.  Rounding is not modelled: the claims
under study are about control flow, NaN propagation and branch selection,
none of which depend on rounding of in-range finite values.
-/

/-- IEEE-style scalar for the exact-rational model: a finite rational,
positive or negative infinity, or NaN. -/
inductive RF where
  | fin : ℚ → RF
  | pinf : RF
  | ninf : RF
  | nan : RF
deriving DecidableEq

namespace RF

/-- NaN test (`np.isnan`). -/
def isNan : RF → Bool
  | nan => true
  | _ => false

/-- IEEE negation. -/
def neg : RF → RF
  | fin q => fin (-q)
  | pinf => ninf
  | ninf => pinf
  | nan => nan

/-- IEEE addition: NaN propagates, opposite infinities give NaN. -/
def add : RF → RF → RF
  | nan, _ => nan
  | _, nan => nan
  | fin p, fin q => fin (p + q)
  | fin _, pinf => pinf
  | fin _, ninf => ninf
  | pinf, fin _ => pinf
  | ninf, fin _ => ninf
  | pinf, pinf => pinf
  | ninf, ninf => ninf
  | pinf, ninf => nan
  | ninf, pinf => nan

/-- IEEE subtraction. -/
def sub (x y : RF) : RF := add x (neg y)

/-- IEEE multiplication: NaN propagates, infinity times zero gives NaN. -/
def mul : RF → RF → RF
  | nan, _ => nan
  | _, nan => nan
  | fin p, fin q => fin (p * q)
  | fin p, pinf => if 0 < p then pinf else if p < 0 then ninf else nan
  | fin p, ninf => if 0 < p then ninf else if p < 0 then pinf else nan
  | pinf, fin q => if 0 < q then pinf else if q < 0 then ninf else nan
  | ninf, fin q => if 0 < q then ninf else if q < 0 then pinf else nan
  | pinf, pinf => pinf
  | pinf, ninf => ninf
  | ninf, pinf => ninf
  | ninf, ninf => pinf

/-- IEEE division.  The module never produces negative zero (all zeros come
from exact cancellation, which IEEE rounds to positive zero), so a zero
divisor behaves as positive zero: nonzero/0 is a signed infinity and 0/0 is
NaN.  Infinity over infinity is NaN; a finite value over infinity is zero. -/
def div : RF → RF → RF
  | nan, _ => nan
  | _, nan => nan
  | fin p, fin q =>
      if q = 0 then (if 0 < p then pinf else if p < 0 then ninf else nan)
      else fin (p / q)
  | fin _, pinf => fin 0
  | fin _, ninf => fin 0
  | pinf, fin q => if q < 0 then ninf else pinf
  | ninf, fin q => if q < 0 then pinf else ninf
  | pinf, pinf => nan
  | pinf, ninf => nan
  | ninf, pinf => nan
  | ninf, ninf => nan

/-- IEEE strict less-than: false whenever an operand is NaN. -/
def lt : RF → RF → Bool
  | nan, _ => false
  | _, nan => false
  | fin p, fin q => decide (p < q)
  | fin _, pinf => true
  | fin _, ninf => false
  | pinf, _ => false
  | ninf, pinf => true
  | ninf, fin _ => true
  | ninf, ninf => false

/-- IEEE strict greater-than. -/
def gt (x y : RF) : Bool := lt y x

/-- IEEE equality test (`==`): NaN compares unequal to everything,
including itself. -/
def beq : RF → RF → Bool
  | fin p, fin q => decide (p = q)
  | pinf, pinf => true
  | ninf, ninf => true
  | _, _ => false

/-- Exact square root of a nonnegative rational, when the rational is a
perfect square of a rational (numerator and denominator of the reduced
form both perfect squares). -/
def sqrtQ (q : ℚ) : Option ℚ :=
  let sn := Nat.sqrt q.num.natAbs
  let sd := Nat.sqrt q.den
  if 0 ≤ q.num ∧ sn * sn = q.num.natAbs ∧ sd * sd = q.den then
    some ((sn : ℚ) / (sd : ℚ))
  else none

/-- IEEE square root over the exact-rational model (`np.sqrt` under
suppressed invalid warnings): NaN and negative inputs map to NaN, positive
infinity maps to itself, and a nonnegative rational maps to its exact
square root when that root is rational.  A positive rational that is not a
perfect square has an irrational square root, which this exact model cannot
represent; it maps to NaN.  No theorem below depends on the value of such a
root: they either hold for every value of the root or are evaluated at
perfect squares. -/
def sqrt : RF → RF
  | nan => nan
  | ninf => nan
  | pinf => pinf
  | fin q =>
      if q < 0 then nan
      else match sqrtQ q with
        | some r => fin r
        | none => nan

instance : Neg RF := ⟨RF.neg⟩
instance : Add RF := ⟨RF.add⟩
instance : Sub RF := ⟨RF.sub⟩
instance : Mul RF := ⟨RF.mul⟩
instance : Div RF := ⟨RF.div⟩

/-- Membership of a scalar in the closed rational interval; false for NaN
and for the infinities. -/
def inRange (x : RF) (lo hi : ℚ) : Bool :=
  match x with
  | fin q => decide (lo ≤ q) && decide (q ≤ hi)
  | _ => false

end RF

/-- One planar point, as one row of the `(n, 2)` corner arrays of the
source (column 0 is x, column 1 is y). -/
structure Pt where
  x : RF
  y : RF
deriving DecidableEq

/-- Element-wise model of `_solve_quadratic` (source lines 445-482): solve
`a x^2 + b x + c = 0` and keep the root lying in `[min_val, max_val]`,
preferring `x_1 = (-b + sqrt(disc)) / (2 a)` and falling back to
`x_2 = (-b - sqrt(disc)) / (2 a)`; a kept value outside the interval is
replaced by NaN.  The scalar-to-ndarray coercion at the top of the source
function is a vectorisation adapter with no element-wise effect. -/
def _solve_quadratic (a__ b__ c__ : RF) (min_val max_val : RF) : RF :=
  let discriminant := b__ * b__ - RF.fin 4 * a__ * c__
  let x_1 := (-b__ + RF.sqrt discriminant) / (RF.fin 2 * a__)
  let x_2 := (-b__ - RF.sqrt discriminant) / (RF.fin 2 * a__)
  let x__ := if x_1.lt min_val || x_1.gt max_val then x_2 else x_1
  if x__.lt min_val || x__.gt max_val then RF.nan else x__

/-- Element-wise model of `_find_vert_parallels` (source lines 267-274):
exact-zero cross-product test of `p3 - p1` against `p4 - p2`. -/
def _find_vert_parallels (pt_1 pt_2 pt_3 pt_4 : Pt) : Bool :=
  ((pt_3.x - pt_1.x) * (pt_4.y - pt_2.y) -
    (pt_4.x - pt_2.x) * (pt_3.y - pt_1.y)).beq (RF.fin 0)

/-- Element-wise model of `_find_horiz_parallels` (source lines 277-284):
exact-zero cross-product test of `p2 - p1` against `p4 - p3`. -/
def _find_horiz_parallels (pt_1 pt_2 pt_3 pt_4 : Pt) : Bool :=
  ((pt_2.x - pt_1.x) * (pt_4.y - pt_3.y) -
    (pt_4.x - pt_3.x) * (pt_2.y - pt_1.y)).beq (RF.fin 0)

/-- Element-wise model of `_get_ts_irregular` (source lines 287-320):
quadratic solve for `t`, back-substitution for `s`, and invalidation of `s`
outside `[0, 1]`. -/
def _get_ts_irregular (pt_1 pt_2 pt_3 pt_4 : Pt) (out_y out_x : RF) :
    RF × RF :=
  let x_21 := pt_2.x - pt_1.x
  let x_31 := pt_3.x - pt_1.x
  let x_42 := pt_4.x - pt_2.x
  let y_21 := pt_2.y - pt_1.y
  let y_31 := pt_3.y - pt_1.y
  let y_42 := pt_4.y - pt_2.y
  let a__ := x_31 * y_42 - y_31 * x_42
  let b__ := out_y * (x_42 - x_31) - out_x * (y_42 - y_31) +
    x_31 * pt_2.y - y_31 * pt_2.x + pt_1.x * y_42 - pt_1.y * x_42
  let c__ := out_y * x_21 - out_x * y_21 + pt_1.x * pt_2.y -
    pt_2.x * pt_1.y
  let t__ := _solve_quadratic a__ b__ c__ (RF.fin 0) (RF.fin 1)
  let s__ := (out_y - pt_1.y - y_31 * t__) /
    (pt_2.y + y_42 * t__ - pt_1.y - y_31 * t__)
  (t__, if s__.lt (RF.fin 0) || s__.gt (RF.fin 1) then RF.nan else s__)

/-- Element-wise model of `_get_ts_uprights_parallel` (source lines
323-351), transliterated exactly, including the literal final term
`- pt_3[:, 0] - pt_1[:, 0]` of `c__` as written in the source. -/
def _get_ts_uprights_parallel (pt_1 pt_2 pt_3 pt_4 : Pt) (out_y out_x : RF) :
    RF × RF :=
  let x_21 := pt_2.x - pt_1.x
  let x_31 := pt_3.x - pt_1.x
  let x_43 := pt_4.x - pt_3.x
  let y_21 := pt_2.y - pt_1.y
  let y_31 := pt_3.y - pt_1.y
  let y_43 := pt_4.y - pt_3.y
  let a__ := x_21 * y_43 - y_21 * x_43
  let b__ := out_y * (x_43 - x_21) - out_x * (y_43 - y_21) +
    pt_1.x * y_43 - pt_1.y * x_43 + x_21 * pt_3.y - y_21 * pt_3.x
  let c__ := out_y * x_31 - out_x * y_31 + pt_1.x * pt_3.y -
    pt_3.x - pt_1.x
  let s__ := _solve_quadratic a__ b__ c__ (RF.fin 0) (RF.fin 1)
  let t__ := (out_y - pt_1.y - y_21 * s__) /
    (pt_3.y + y_43 * s__ - pt_1.y - y_21 * s__)
  (if t__.lt (RF.fin 0) || t__.gt (RF.fin 1) then RF.nan else t__, s__)

/-- Element-wise model of `_get_ts_parallellogram` (source lines 354-375),
transliterated exactly, including the literal `+ x_31 * t__` term in the
`s__` numerator as written in the source. -/
def _get_ts_parallellogram (pt_1 pt_2 pt_3 : Pt) (out_y out_x : RF) :
    RF × RF :=
  let x_21 := pt_2.x - pt_1.x
  let x_31 := pt_3.x - pt_1.x
  let y_21 := pt_2.y - pt_1.y
  let y_31 := pt_3.y - pt_1.y
  let t__ := (x_21 * (out_y - pt_1.y) - y_21 * (out_x - pt_1.x)) /
    (x_21 * y_31 - y_21 * x_31)
  let t__ := if t__.lt (RF.fin 0) || t__.gt (RF.fin 1) then RF.nan else t__
  let s__ := (out_x - pt_1.x + x_31 * t__) / x_21
  (t__, if s__.lt (RF.fin 0) || s__.gt (RF.fin 1) then RF.nan else s__)

/-- Final range filter of `_get_ts` (source lines 259-262): one element-wise
mask marks a `(t, s)` pair with either component strictly below 0 or
strictly above 1 (false on NaN, per IEEE comparisons), and both components
of a marked pair are replaced by NaN. -/
def clampTS (ts : RF × RF) : RF × RF :=
  let bad := ts.1.lt (RF.fin 0) || ts.1.gt (RF.fin 1) ||
    ts.2.lt (RF.fin 0) || ts.2.gt (RF.fin 1)
  (if bad then RF.nan else ts.1, if bad then RF.nan else ts.2)

/-- Element-wise model of `_get_ts` (source lines 227-264).  The source
initialises `t__`/`s__` to NaN and overwrites them under three boolean
masks, `vert & ~horiz`, `vert & horiz` and `~vert`; the masks are mutually
exclusive and jointly exhaustive.  The two vertical-parallel branches,
however, index the 1-D output coordinates with a boolean mask and a slice,
`out_y[idxs, :]` / `out_x[idxs, :]` (lines 242 and 249; `out_x`/`out_y`
are raveled 1-D arrays from `_get_output_xy`), which NumPy rejects with
`IndexError: too many indices for array` whenever the mask selects this
element, before `_get_ts_uprights_parallel` or `_get_ts_parallellogram`
runs.  Only the irregular branch (line 257) uses the well-formed
`out_y[idxs]` and completes, followed by the final range filter. -/
def _get_ts (pt_1 pt_2 pt_3 pt_4 : Pt) (out_x out_y : RF) :
    Except String (RF × RF) :=
  let vert_parallel := _find_vert_parallels pt_1 pt_2 pt_3 pt_4
  let horiz_parallel := _find_horiz_parallels pt_1 pt_2 pt_3 pt_4
  if vert_parallel && !horiz_parallel then
    Except.error "IndexError"
  else if vert_parallel && horiz_parallel then
    Except.error "IndexError"
  else
    Except.ok (clampTS (_get_ts_irregular pt_1 pt_2 pt_3 pt_4 out_y out_x))

/-- Index of the first true entry of a boolean list, if any. -/
def firstTrue : List Bool → Option Nat
  | [] => none
  | b :: rest => if b then some 0 else (firstTrue rest).map (fun j => j + 1)

/-- First index at which a boolean list is true, or 0 when there is none:
`np.argmax(valid, axis=1)` on one row of a boolean array (`argmax` of
booleans returns the first occurrence of the maximum, and 0 when every
entry is False). -/
def argmaxBool (valid : List Bool) : Nat := (firstTrue valid).getD 0

/-- Per-target-point model of `_get_corner` (source lines 390-401): pick
the first candidate flagged valid (`np.argmax` over booleans), replace the
coordinates (but not the index) with NaN when no candidate is valid, and
read the index entry of the picked slot from the index-reference row. -/
def _get_corner (valid : List Bool) (in_x in_y : List RF)
    (idx_ref : List Nat) : RF × RF × Nat :=
  let idxs := argmaxBool valid
  let invalid := !(valid.any id)
  let x__ := if invalid then RF.nan else in_x.getD idxs RF.nan
  let y__ := if invalid then RF.nan else in_y.getD idxs RF.nan
  let idx := idx_ref.getD idxs 0
  (x__, y__, idx)

/-- Per-target-point model of `_get_bounding_corners` (source lines
404-442): differences `x_diff = out_x - in_x`, `y_diff = out_y - in_y`
against every candidate, four quadrant masks, and one `_get_corner`
selection per quadrant.  Returns the four corner points and the four
per-corner index entries (one row of the stacked `idx_ref`). -/
def _get_bounding_corners (in_x in_y : List RF) (out_x out_y : RF)
    (idx_ref : List Nat) :
    Pt × Pt × Pt × Pt × (Nat × Nat × Nat × Nat) :=
  let diffs := (in_x.zip in_y).map fun c => (out_x - c.1, out_y - c.2)
  let valid_1 := diffs.map fun d => d.1.gt (RF.fin 0) && d.2.lt (RF.fin 0)
  let valid_2 := diffs.map fun d => d.1.lt (RF.fin 0) && d.2.lt (RF.fin 0)
  let valid_3 := diffs.map fun d => d.1.gt (RF.fin 0) && d.2.gt (RF.fin 0)
  let valid_4 := diffs.map fun d => d.1.lt (RF.fin 0) && d.2.gt (RF.fin 0)
  let c_1 := _get_corner valid_1 in_x in_y idx_ref
  let c_2 := _get_corner valid_2 in_x in_y idx_ref
  let c_3 := _get_corner valid_3 in_x in_y idx_ref
  let c_4 := _get_corner valid_4 in_x in_y idx_ref
  (⟨c_1.1, c_1.2.1⟩, ⟨c_2.1, c_2.2.1⟩, ⟨c_3.1, c_3.2.1⟩, ⟨c_4.1, c_4.2.1⟩,
    (c_1.2.2, c_2.2.2, c_3.2.2, c_4.2.2))

/-- Boolean-mask selection `l[m]` of NumPy (kept where the mask is true). -/
def boolSelect {α : Type} (l : List α) (m : List Bool) : List α :=
  ((l.zip m).filter fun p => p.2).map fun p => p.1

/-- NumPy array that is either a plain `ndarray` (`mask = none`, no `mask`
attribute) or a `numpy.ma.MaskedArray` (`mask = some m`). -/
structure NpArr where
  vals : List RF
  mask : Option (List Bool)
deriving DecidableEq

deriving instance DecidableEq for Except

/-- Element-wise mask of an array: all-false for a plain ndarray. -/
def maskOf (a : NpArr) : List Bool :=
  a.mask.getD (List.replicate a.vals.length false)

/-- Running minimum ignoring NaN (`np.nanmin` reduction step). -/
def nanminStep (x y : RF) : RF :=
  match x, y with
  | RF.nan, b => b
  | a, RF.nan => a
  | a, b => if a.lt b then a else b

/-- Running maximum ignoring NaN (`np.nanmax` reduction step). -/
def nanmaxStep (x y : RF) : RF :=
  match x, y with
  | RF.nan, b => b
  | a, RF.nan => a
  | a, b => if a.gt b then a else b

/-- `np.nanmin`: minimum ignoring NaN; NaN when every entry is NaN.  The
empty reduction, on which NumPy raises `ValueError`, is totalised to NaN;
all uses below have nonempty reductions. -/
def nanmin (l : List RF) : RF := l.foldl nanminStep RF.nan

/-- `np.nanmax`: maximum ignoring NaN; NaN when every entry is NaN, with
the same totalisation of the empty reduction as `nanmin`. -/
def nanmax (l : List RF) : RF := l.foldl nanmaxStep RF.nan

/-- The four corner data values `new_data[idx_arr]` for every target point
(source line 133 plus the column reads of lines 136-139).  Out-of-range
index entries are totalised to NaN; NumPy would raise `IndexError` there,
but every index `get_bil_info` produces is in range, and all uses below
stay in that domain. -/
def gatherRows (new_data : List RF) (idx_arr : List (Nat × Nat × Nat × Nat)) :
    List (RF × RF × RF × RF) :=
  idx_arr.map fun r =>
    (new_data.getD r.1 RF.nan, new_data.getD r.2.1 RF.nan,
      new_data.getD r.2.2.1 RF.nan, new_data.getD r.2.2.2 RF.nan)

/-- The bilinear weighted sum of the four corner values (source lines
141-144). -/
def bilTerm (p : RF × RF × RF × RF) (s__ t__ : RF) : RF :=
  p.1 * (RF.fin 1 - s__) * (RF.fin 1 - t__) +
    p.2.1 * s__ * (RF.fin 1 - t__) +
    p.2.2.1 * (RF.fin 1 - s__) * t__ +
    p.2.2.2 * s__ * t__

/-- `result` values of `get_sample_from_bil_info`, one per target point. -/
def resultVals (new_data : List RF) (idx_arr : List (Nat × Nat × Nat × Nat))
    (tv sv : List RF) : List RF :=
  ((gatherRows new_data idx_arr).zip (tv.zip sv)).map fun z =>
    bilTerm z.1 z.2.2 z.2.1

/-- Propagated input mask of `result`: the OR of the four gathered corner
mask entries with the `t__` and `s__` mask entries (NumPy masked-array
arithmetic ORs the operand masks element-wise). -/
def preMask (data : NpArr) (input_idxs : List Bool)
    (idx_arr : List (Nat × Nat × Nat × Nat)) (t__ s__ : NpArr) : List Bool :=
  let dm := boolSelect (maskOf data) input_idxs
  let rowm := idx_arr.map fun r =>
    dm.getD r.1 false || dm.getD r.2.1 false ||
      dm.getD r.2.2.1 false || dm.getD r.2.2.2 false
  (rowm.zip ((maskOf t__).zip (maskOf s__))).map fun z =>
    z.1 || z.2.1 || z.2.2

/-- Validity mask of source lines 146-148: results strictly above
`data_max` or strictly below `data_min`, NaN results, and elements already
masked in the inputs. -/
def guardMask (data_min data_max : RF) (rv : List RF) (pre : List Bool) :
    List Bool :=
  (rv.zip pre).map fun z =>
    z.1.gt data_max || z.1.lt data_min || z.1.isNan || z.2

/-- Model of `get_sample_from_bil_info` (source lines 102-155).  The data
reduction `data[input_idxs]` and the extrapolation bounds are computed
before the corner gather `new_data[idx_arr]`.  Line 148 reads
`result.mask`; when `data`, `t__` and `s__` are all plain ndarrays the
interpolation result is a plain ndarray without a `mask` attribute and the
read raises `AttributeError`, modelled as the error branch.  Otherwise the
result is the masked array produced by `np.ma.masked_where` on line 150.
The optional `output_shape` reshape of lines 152-153 is a pure layout
transform and is not modelled. -/
def get_sample_from_bil_info (data t__ s__ : NpArr) (input_idxs : List Bool)
    (idx_arr : List (Nat × Nat × Nat × Nat)) : Except String NpArr :=
  let new_data := boolSelect data.vals input_idxs
  let data_min := nanmin new_data
  let data_max := nanmax new_data
  let rv := resultVals new_data idx_arr t__.vals s__.vals
  if data.mask.isNone && t__.mask.isNone && s__.mask.isNone then
    Except.error "AttributeError"
  else
    Except.ok ⟨rv, some (guardMask data_min data_max rv
      (preMask data input_idxs idx_arr t__ s__))⟩

/-- Safe indexed read, raising the NumPy `IndexError` on an out-of-range
fancy index. -/
def getE {α : Type} (l : List α) (i : Nat) : Except String α :=
  if h : i < l.length then Except.ok (l.get ⟨i, h⟩)
  else Except.error "IndexError"

/-- Indexed gather `xs[is]` with bound checking. -/
def mapGetE {α : Type} (xs : List α) : List Nat → Except String (List α)
  | [] => Except.ok []
  | i :: rest => do
    let v ← getE xs i
    let vs ← mapGetE xs rest
    Except.ok (v :: vs)

/-- Effectful map over a list, stopping at the first error. -/
def mapExcept {α β : Type} (f : α → Except String β) :
    List α → Except String (List β)
  | [] => Except.ok []
  | a :: rest => do
    let b ← f a
    let bs ← mapExcept f rest
    Except.ok (b :: bs)

/-- Insertion of a (squared-distance, index) pair keeping the list sorted
by increasing distance with index as tie-break. -/
def insertByDist (a : ℚ × Nat) : List (ℚ × Nat) → List (ℚ × Nat)
  | [] => [a]
  | b :: rest =>
      if a.1 < b.1 ∨ (a.1 = b.1 ∧ a.2 ≤ b.2) then a :: b :: rest
      else b :: insertByDist a rest

/-- Insertion sort by increasing distance. -/
def sortByDist : List (ℚ × Nat) → List (ℚ × Nat)
  | [] => []
  | a :: rest => insertByDist a (sortByDist rest)

/-- Squared planar distance. -/
def sqDist (ax ay bx by_ : ℚ) : ℚ := (ax - bx) * (ax - bx) + (ay - by_) * (ay - by_)

/-- Modelled from the spec: the external neighbour search
`pyresample.kd_tree.get_neighbour_info` (part of the repository but not of
the module under verification) returns, per target point, the indices of
up to `neighbours` source points within the cutoff radius sorted by
increasing distance, padding missing candidates with the sentinel index
`input_size` (the count of valid source points); the valid-input mask
flags every source point here because all modelled coordinates are finite
planar values. -/
def get_neighbour_info (src tgt : List (ℚ × ℚ)) (radius : ℚ)
    (neighbours : Nat) : List Bool × List (List Nat) :=
  let input_idxs := List.replicate src.length true
  let input_size := src.length
  let rows := tgt.map fun t =>
    let ds := (List.range src.length).map fun i =>
      (sqDist (src.getD i (0, 0)).1 (src.getD i (0, 0)).2 t.1 t.2, i)
    let within := ds.filter fun d => decide (d.1 ≤ radius * radius)
    let picked := ((sortByDist within).map fun d => d.2).take neighbours
    picked ++ List.replicate (neighbours - picked.length) input_size
  (input_idxs, rows)

/-- Result of `get_bil_info`: fractional coordinates `t__` and `s__`, the
valid-input mask, and the per-target rows of four corner index entries
(the stacked `idx_ref` of source line 439). -/
structure BilInfo where
  t : List RF
  s : List RF
  input_idxs : List Bool
  idx_arr : List (Nat × Nat × Nat × Nat)
deriving DecidableEq

/-- Per-target-point step of `get_bil_info`: expand the reduced input
coordinates along the index-reference row (`_get_input_xy`, source lines
496-514), select the bounding corners, and resolve `(t, s)`. -/
def bil_target_point (in_lons in_lats : List ℚ) (p : (ℚ × ℚ) × List Nat) :
    Except String (RF × RF × (Nat × Nat × Nat × Nat)) := do
  let row := p.2
  let in_x ← mapGetE in_lons row
  let in_y ← mapGetE in_lats row
  let out_x := RF.fin p.1.1
  let out_y := RF.fin p.1.2
  let bc := _get_bounding_corners (in_x.map RF.fin) (in_y.map RF.fin)
    out_x out_y row
  let ts ← _get_ts bc.1 bc.2.1 bc.2.2.1 bc.2.2.2.1 out_x out_y
  Except.ok (ts.1, ts.2, bc.2.2.2.2)

/-- Model of `get_bil_info` (source lines 158-224) over already-projected
planar coordinates: the external collaborators are the spec-modelled
neighbour search above and the projection adapter, modelled as the
identity on planar coordinates (the spec treats projection as an external
adapter producing planar x/y).  The body follows the source: reduce the
index reference by replacing the sentinel `input_size` with 0 (lines
197-200), expand the reduced input coordinates per target (lines 208-209,
`_get_input_xy`), select the four bounding corners (lines 211-213), and
resolve the fractional coordinates (line 216).  The `masked=True` branch
of lines 218-222 is not modelled (the default is `masked=False`).  Fancy
indexed reads and the malformed vertical-parallel indexing inside
`_get_ts` model the NumPy `IndexError` failure modes; arithmetic itself
never raises. -/
def get_bil_info (src tgt : List (ℚ × ℚ)) (radius : ℚ) (neighbours : Nat) :
    Except String BilInfo := do
  let ni := get_neighbour_info src tgt radius neighbours
  let input_idxs := ni.1
  let input_size := (input_idxs.filter id).length
  let idx_ref := ni.2.map fun row =>
    row.map fun i => if i = input_size then 0 else i
  let in_lons := boolSelect (src.map fun p => p.1) input_idxs
  let in_lats := boolSelect (src.map fun p => p.2) input_idxs
  let res ← mapExcept (bil_target_point in_lons in_lats) (tgt.zip idx_ref)
  Except.ok ⟨res.map (fun r => r.1), res.map (fun r => r.2.1), input_idxs,
    res.map (fun r => r.2.2)⟩

/-- Selection mask of source line 237: verticals parallel and horizontals
not parallel. -/
def mask_uprights (pt_1 pt_2 pt_3 pt_4 : Pt) : Bool :=
  _find_vert_parallels pt_1 pt_2 pt_3 pt_4 &&
    !(_find_horiz_parallels pt_1 pt_2 pt_3 pt_4)

/-- Selection mask of source line 245: verticals and horizontals both
parallel. -/
def mask_parallellogram (pt_1 pt_2 pt_3 pt_4 : Pt) : Bool :=
  _find_vert_parallels pt_1 pt_2 pt_3 pt_4 &&
    _find_horiz_parallels pt_1 pt_2 pt_3 pt_4

/-- Selection mask of source line 252: verticals not parallel (this also
covers the horizontal-parallel-only combination). -/
def mask_irregular (pt_1 pt_2 pt_3 pt_4 : Pt) : Bool :=
  !(_find_vert_parallels pt_1 pt_2 pt_3 pt_4)

/-- Spec-side selection contract for one quadrant: the first eligible
candidate in the given ordering supplies the corner coordinates and index;
with no eligible candidate the coordinates are NaN and the index entry is
the one at position 0. -/
def spec_first_eligible (elig : List Bool) (in_x in_y : List RF)
    (idx_ref : List Nat) : RF × RF × Nat :=
  match firstTrue elig with
  | some j => (in_x.getD j RF.nan, in_y.getD j RF.nan, idx_ref.getD j 0)
  | none => (RF.nan, RF.nan, idx_ref.getD 0 0)

/-- Quadrant condition for the upper-left corner, on the offsets
`(target - candidate)`: x > 0 and y < 0. -/
def spec_elig_ul (dx dy : RF) : Bool := dx.gt (RF.fin 0) && dy.lt (RF.fin 0)

/-- Quadrant condition for the upper-right corner, on the offsets
`(target - candidate)`: x < 0 and y < 0. -/
def spec_elig_ur (dx dy : RF) : Bool := dx.lt (RF.fin 0) && dy.lt (RF.fin 0)

/-- Quadrant condition for the lower-left corner, on the offsets
`(target - candidate)`: x > 0 and y > 0. -/
def spec_elig_ll (dx dy : RF) : Bool := dx.gt (RF.fin 0) && dy.gt (RF.fin 0)

/-- Quadrant condition for the lower-right corner, on the offsets
`(target - candidate)`: x < 0 and y > 0. -/
def spec_elig_lr (dx dy : RF) : Bool := dx.lt (RF.fin 0) && dy.gt (RF.fin 0)

/-- The reduced source data values actually referenced by some corner of
some target point.  This is the set the claim designates for the
extrapolation bounds; it is stated from the specification's words for
comparison with the bounds the code computes. -/
def spec_referenced_reduced (new_data : List RF)
    (idx_arr : List (Nat × Nat × Nat × Nat)) : List RF :=
  (idx_arr.map fun r =>
    [new_data.getD r.1 RF.nan, new_data.getD r.2.1 RF.nan,
      new_data.getD r.2.2.1 RF.nan, new_data.getD r.2.2.2 RF.nan]).flatten

@[simp] theorem RF.nan_add (x : RF) : RF.nan + x = RF.nan := by
  cases x <;> rfl

@[simp] theorem RF.add_nan (x : RF) : x + RF.nan = RF.nan := by
  cases x <;> rfl

@[simp] theorem RF.nan_sub (x : RF) : RF.nan - x = RF.nan := by
  cases x <;> rfl

@[simp] theorem RF.sub_nan (x : RF) : x - RF.nan = RF.nan := by
  cases x <;> rfl

@[simp] theorem RF.nan_mul (x : RF) : RF.nan * x = RF.nan := by
  cases x <;> rfl

@[simp] theorem RF.mul_nan (x : RF) : x * RF.nan = RF.nan := by
  cases x <;> rfl

@[simp] theorem RF.nan_div (x : RF) : RF.nan / x = RF.nan := by
  cases x <;> rfl

@[simp] theorem RF.div_nan (x : RF) : x / RF.nan = RF.nan := by
  cases x <;> rfl

@[simp] theorem RF.nan_lt (x : RF) : RF.nan.lt x = false := by
  cases x <;> rfl

@[simp] theorem RF.lt_nan (x : RF) : x.lt RF.nan = false := by
  cases x <;> rfl

@[simp] theorem RF.nan_gt (x : RF) : RF.nan.gt x = false := by
  cases x <;> rfl

@[simp] theorem RF.gt_nan (x : RF) : x.gt RF.nan = false := by
  cases x <;> rfl

/-- A scalar that fails both strict range tests against `fin lo` and
`fin hi` is NaN or a finite value inside `[lo, hi]`. -/
theorem RF.valid_of_tests (x : RF) (lo hi : ℚ)
    (h1 : x.lt (RF.fin lo) = false) (h2 : x.gt (RF.fin hi) = false) :
    x = RF.nan ∨ x.inRange lo hi = true := by
  cases x with
  | fin q =>
      right
      simp only [RF.lt, decide_eq_false_iff_not, not_lt] at h1
      simp only [RF.gt, RF.lt, decide_eq_false_iff_not, not_lt] at h2
      simp [RF.inRange, h1, h2]
  | pinf => simp [RF.gt, RF.lt] at h2
  | ninf => simp [RF.lt] at h1
  | nan => exact Or.inl rfl

/-- The final range filter leaves each component either NaN or a finite
value inside the unit interval. -/
theorem clampTS_valid (ts : RF × RF) :
    ((clampTS ts).1 = RF.nan ∨ (clampTS ts).1.inRange 0 1 = true) ∧
      ((clampTS ts).2 = RF.nan ∨ (clampTS ts).2.inRange 0 1 = true) := by
  unfold clampTS
  by_cases hb : (ts.1.lt (RF.fin 0) || ts.1.gt (RF.fin 1) ||
      ts.2.lt (RF.fin 0) || ts.2.gt (RF.fin 1)) = true
  · simp [hb]
  · have hb0 := eq_false_of_ne_true hb
    have hsplit := hb0
    simp only [Bool.or_eq_false_iff] at hsplit
    obtain ⟨⟨⟨h1, h2⟩, h3⟩, h4⟩ := hsplit
    simp only [hb0, Bool.false_eq_true, if_false]
    exact ⟨RF.valid_of_tests ts.1 0 1 h1 h2, RF.valid_of_tests ts.2 0 1 h3 h4⟩

/-- C1: for every target point for which `_get_ts` returns fractional
coordinates at all (on the vertical-parallel inputs the program instead
raises before returning anything), each returned component `t` and `s` is
either NaN or a finite value inside `[0, 1]` inclusive — never a finite
value outside the interval and never an infinity — because the final
filter of `_get_ts` forces any component outside `[0, 1]` to NaN before
returning. -/
theorem c1_range_bound (pt_1 pt_2 pt_3 pt_4 : Pt) (out_x out_y : RF)
    (t__ s__ : RF)
    (h : _get_ts pt_1 pt_2 pt_3 pt_4 out_x out_y = Except.ok (t__, s__)) :
    (t__ = RF.nan ∨ t__.inRange 0 1 = true) ∧
    (s__ = RF.nan ∨ s__.inRange 0 1 = true) := by
  unfold _get_ts at h
  dsimp only at h
  split_ifs at h
  have hts := (Except.ok.injEq _ _).mp h
  have h1 := congrArg Prod.fst hts
  have h2 := congrArg Prod.snd hts
  dsimp at h1 h2
  rw [← h1, ← h2]
  exact clampTS_valid _

/-- C1 witness: a concrete non-parallel quadrilateral where the returned
pair is `(1/2, NaN)` (the back-substitution denominator vanishes),
through the theorem itself. -/
theorem c1_range_bound_witness :
    (RF.fin (1/2) = RF.nan ∨ (RF.fin (1/2)).inRange 0 1 = true) ∧
    (RF.nan = RF.nan ∨ RF.nan.inRange 0 1 = true) :=
  c1_range_bound ⟨RF.fin 0, RF.fin 2⟩ ⟨RF.fin 2, RF.fin 2⟩
    ⟨RF.fin 0, RF.fin 0⟩ ⟨RF.fin 1, RF.fin 0⟩ (RF.fin 1) (RF.fin 1)
    (RF.fin (1/2)) RF.nan (by with_unfolding_all decide)

/-- A scalar inside the interval passes both strict range tests. -/
theorem RF.tests_false_of_inRange (x : RF) (lo hi : ℚ)
    (h : x.inRange lo hi = true) :
    (x.lt (RF.fin lo) || x.gt (RF.fin hi)) = false := by
  cases x with
  | fin q =>
      simp only [RF.inRange, Bool.and_eq_true, decide_eq_true_eq] at h
      simp only [RF.lt, RF.gt, Bool.or_eq_false_iff,
        decide_eq_false_iff_not, not_lt]
      exact ⟨h.1, h.2⟩
  | pinf => simp [RF.inRange] at h
  | ninf => simp [RF.inRange] at h
  | nan => simp [RF.inRange] at h

/-- A non-NaN scalar outside the interval fails one of the strict range
tests. -/
theorem RF.tests_true_of_out (x : RF) (lo hi : ℚ)
    (h : x.inRange lo hi = false) (hn : x ≠ RF.nan) :
    (x.lt (RF.fin lo) || x.gt (RF.fin hi)) = true := by
  cases x with
  | fin q =>
      simp only [RF.lt, RF.gt]
      by_cases hq : q < lo
      · simp [hq]
      · have hlo : lo ≤ q := not_lt.mp hq
        have hhi : ¬ q ≤ hi := by
          intro hhi
          simp [RF.inRange, hlo, hhi] at h
        simp [not_le.mp hhi]
  | pinf => simp [RF.lt, RF.gt]
  | ninf => simp [RF.lt]
  | nan => exact absurd rfl hn

/-- The IEEE square root is never negative infinity. -/
theorem RF.sqrt_ne_ninf (x : RF) : RF.sqrt x ≠ RF.ninf := by
  cases x with
  | fin q =>
      simp only [RF.sqrt]
      split_ifs
      · simp
      · cases hsq : RF.sqrtQ q <;> simp [hsq]
  | pinf => simp [RF.sqrt]
  | ninf => simp [RF.sqrt]
  | nan => simp [RF.sqrt]

/-- Division by (positive) zero never produces a value inside an
interval: the quotient is an infinity or NaN. -/
theorem RF.inRange_div_fin_zero (x : RF) (lo hi : ℚ) :
    (RF.div x (RF.fin 0)).inRange lo hi = false := by
  cases x with
  | fin p =>
      simp only [RF.div, if_pos rfl]
      split_ifs <;> rfl
  | pinf => simp [RF.div, RF.inRange]
  | ninf => simp [RF.div, RF.inRange]
  | nan => rfl

/-- If the preferred root `(nb + s) / d` evaluates to NaN, with `s` a
square root (hence not negative infinity), then the other root
`(nb - s) / d` cannot lie inside any interval: it is NaN or an infinity.
This is the key link between the substitution order of the source and the
preference rule of the specification. -/
theorem RF.x2_out_of_x1_nan (nb s d : RF) (hs : s ≠ RF.ninf)
    (h : RF.div (RF.add nb s) d = RF.nan) (lo hi : ℚ) :
    (RF.div (RF.sub nb s) d).inRange lo hi = false := by
  cases nb <;> cases s <;> cases d <;>
    simp_all only [RF.div, RF.add, RF.sub, RF.neg, RF.inRange, ne_eq] <;>
    split_ifs at * <;> simp_all [RF.inRange]

/-- C2: `_solve_quadratic` returns the root
`x_1 = (-b + sqrt(b^2 - 4 a c)) / (2 a)` exactly when it lies in
`[min_val, max_val]`; otherwise the root
`x_2 = (-b - sqrt(b^2 - 4 a c)) / (2 a)` when that lies in the interval;
and NaN when neither does (a negative discriminant makes both roots NaN,
hence NaN); there is no other selection heuristic.  Moreover a degenerate
quadratic (`a = 0`) always yields NaN. -/
theorem c2_solve_quadratic (a__ b__ c__ : RF) (lo hi : ℚ) :
    (_solve_quadratic a__ b__ c__ (RF.fin lo) (RF.fin hi) =
      (let disc := b__ * b__ - RF.fin 4 * a__ * c__
       let x_1 := (-b__ + RF.sqrt disc) / (RF.fin 2 * a__)
       let x_2 := (-b__ - RF.sqrt disc) / (RF.fin 2 * a__)
       if x_1.inRange lo hi then x_1
       else if x_2.inRange lo hi then x_2
       else RF.nan)) ∧
    (a__ = RF.fin 0 →
      _solve_quadratic a__ b__ c__ (RF.fin lo) (RF.fin hi) = RF.nan) := by
  have main : _solve_quadratic a__ b__ c__ (RF.fin lo) (RF.fin hi) =
      (let disc := b__ * b__ - RF.fin 4 * a__ * c__
       let x_1 := (-b__ + RF.sqrt disc) / (RF.fin 2 * a__)
       let x_2 := (-b__ - RF.sqrt disc) / (RF.fin 2 * a__)
       if x_1.inRange lo hi then x_1
       else if x_2.inRange lo hi then x_2
       else RF.nan) := by
    unfold _solve_quadratic
    dsimp only
    set s := RF.sqrt (b__ * b__ - RF.fin 4 * a__ * c__) with hs_def
    set d := RF.fin 2 * a__ with hd_def
    set x1 := (-b__ + s) / d with hx1_def
    set x2 := (-b__ - s) / d with hx2_def
    by_cases h1 : x1.inRange lo hi = true
    · have t1 := RF.tests_false_of_inRange x1 lo hi h1
      simp [t1, h1]
    · have h1f : x1.inRange lo hi = false := eq_false_of_ne_true h1
      by_cases hn1 : x1 = RF.nan
      · have t1 : (x1.lt (RF.fin lo) || x1.gt (RF.fin hi)) = false := by
          rw [hn1]; simp
        have h2f : x2.inRange lo hi = false := by
          have := RF.x2_out_of_x1_nan (-b__) s d (RF.sqrt_ne_ninf _)
            (by exact hn1) lo hi
          exact this
        simp [t1, h1f, h2f, hn1]
      · have t1 := RF.tests_true_of_out x1 lo hi h1f hn1
        by_cases h2 : x2.inRange lo hi = true
        · have t2 := RF.tests_false_of_inRange x2 lo hi h2
          simp [t1, t2, h1f, h2]
        · have h2f : x2.inRange lo hi = false := eq_false_of_ne_true h2
          by_cases hn2 : x2 = RF.nan
          · have t2 : (x2.lt (RF.fin lo) || x2.gt (RF.fin hi)) = false := by
              rw [hn2]; simp
            simp [t1, t2, h1f, h2f, hn2]
          · have t2 := RF.tests_true_of_out x2 lo hi h2f hn2
            simp [t1, t2, h1f, h2f]
  refine ⟨main, ?_⟩
  intro ha
  rw [main]
  subst ha
  have hd : RF.fin 2 * RF.fin 0 = RF.fin 0 := by
    show RF.mul (RF.fin 2) (RF.fin 0) = RF.fin 0
    simp [RF.mul]
  dsimp only
  rw [hd]
  have h1 : ((-b__ + RF.sqrt (b__ * b__ - RF.fin 4 * RF.fin 0 * c__)) /
      RF.fin 0).inRange lo hi = false := RF.inRange_div_fin_zero _ lo hi
  have h2 : ((-b__ - RF.sqrt (b__ * b__ - RF.fin 4 * RF.fin 0 * c__)) /
      RF.fin 0).inRange lo hi = false := RF.inRange_div_fin_zero _ lo hi
  simp [h1, h2]

/-- C2 witness: the degenerate coefficient `a = 0` at concrete inputs,
discharged through the theorem itself. -/
theorem c2_solve_quadratic_witness :
    _solve_quadratic (RF.fin 0) (RF.fin 1) (RF.fin (-1))
      (RF.fin 0) (RF.fin 1) = RF.nan :=
  (c2_solve_quadratic (RF.fin 0) (RF.fin 1) (RF.fin (-1)) 0 1).2 rfl

/-- C7 counterexample: the unit square at its centre satisfies the
parallelogram mask (`vert && horiz`), but `_get_ts` does not apply the
parallelogram branch followed by the range filter: the program raises
`IndexError` from `out_y[idxs, :]` on the 1-D output coordinates (source
line 249) before `_get_ts_parallellogram` runs, so the claimed
branch-selection behaviour is false of the program for the
vertical-parallel branches. -/
theorem c7_counterexample :
    mask_parallellogram ⟨RF.fin 0, RF.fin 1⟩ ⟨RF.fin 1, RF.fin 1⟩
      ⟨RF.fin 0, RF.fin 0⟩ ⟨RF.fin 1, RF.fin 0⟩ = true ∧
    _get_ts ⟨RF.fin 0, RF.fin 1⟩ ⟨RF.fin 1, RF.fin 1⟩
      ⟨RF.fin 0, RF.fin 0⟩ ⟨RF.fin 1, RF.fin 0⟩
      (RF.fin (1/2)) (RF.fin (1/2)) = Except.error "IndexError" := by
  with_unfolding_all decide

/-- C7 amended: the three branch-selection masks of `_get_ts`, determined
by the exact-zero cross-product parallel tests, are jointly exhaustive and
pairwise mutually exclusive, and exactly one branch is selected per target
point: uprights-parallel under `vert && not horiz`, parallelogram under
`vert && horiz`, irregular under `not vert` (which includes the
horizontal-parallel-only combination).  But only the irregular branch is
applied: whenever either vertical-parallel mask holds, `_get_ts` raises
`IndexError` (1-D output coordinates indexed as `out_y[idxs, :]`, source
lines 242 and 249) before the branch solver or the final range filter
runs; under `not vert` it applies `_get_ts_irregular` followed by the
final range filter. -/
theorem c7_amended (pt_1 pt_2 pt_3 pt_4 : Pt) (out_x out_y : RF) :
    (mask_uprights pt_1 pt_2 pt_3 pt_4 ||
      mask_parallellogram pt_1 pt_2 pt_3 pt_4 ||
      mask_irregular pt_1 pt_2 pt_3 pt_4) = true ∧
    (mask_uprights pt_1 pt_2 pt_3 pt_4 &&
      mask_parallellogram pt_1 pt_2 pt_3 pt_4) = false ∧
    (mask_uprights pt_1 pt_2 pt_3 pt_4 &&
      mask_irregular pt_1 pt_2 pt_3 pt_4) = false ∧
    (mask_parallellogram pt_1 pt_2 pt_3 pt_4 &&
      mask_irregular pt_1 pt_2 pt_3 pt_4) = false ∧
    (mask_uprights pt_1 pt_2 pt_3 pt_4 = true →
      _get_ts pt_1 pt_2 pt_3 pt_4 out_x out_y =
        Except.error "IndexError") ∧
    (mask_parallellogram pt_1 pt_2 pt_3 pt_4 = true →
      _get_ts pt_1 pt_2 pt_3 pt_4 out_x out_y =
        Except.error "IndexError") ∧
    (mask_irregular pt_1 pt_2 pt_3 pt_4 = true →
      _get_ts pt_1 pt_2 pt_3 pt_4 out_x out_y =
        Except.ok (clampTS
          (_get_ts_irregular pt_1 pt_2 pt_3 pt_4 out_y out_x))) := by
  unfold mask_uprights mask_parallellogram mask_irregular _get_ts
  cases hv : _find_vert_parallels pt_1 pt_2 pt_3 pt_4 <;>
    cases hh : _find_horiz_parallels pt_1 pt_2 pt_3 pt_4 <;>
    simp [hv, hh]

/-- C7 witness: a concrete non-parallel quadrilateral selects (and
completes) the irregular branch, through the theorem itself. -/
theorem c7_amended_witness :
    mask_irregular ⟨RF.fin 0, RF.fin 2⟩ ⟨RF.fin 2, RF.fin 2⟩
      ⟨RF.fin 0, RF.fin 0⟩ ⟨RF.fin 1, RF.fin 0⟩ = true ∧
    _get_ts ⟨RF.fin 0, RF.fin 2⟩ ⟨RF.fin 2, RF.fin 2⟩
      ⟨RF.fin 0, RF.fin 0⟩ ⟨RF.fin 1, RF.fin 0⟩ (RF.fin 1) (RF.fin 1) =
      Except.ok (clampTS (_get_ts_irregular ⟨RF.fin 0, RF.fin 2⟩
        ⟨RF.fin 2, RF.fin 2⟩ ⟨RF.fin 0, RF.fin 0⟩ ⟨RF.fin 1, RF.fin 0⟩
        (RF.fin 1) (RF.fin 1))) :=
  ⟨by with_unfolding_all decide,
    (c7_amended ⟨RF.fin 0, RF.fin 2⟩ ⟨RF.fin 2, RF.fin 2⟩
      ⟨RF.fin 0, RF.fin 0⟩ ⟨RF.fin 1, RF.fin 0⟩ (RF.fin 1)
      (RF.fin 1)).2.2.2.2.2.2 (by with_unfolding_all decide)⟩

/-- `firstTrue` finds nothing exactly when every entry is false. -/
theorem firstTrue_none_iff (l : List Bool) :
    firstTrue l = none ↔ l.any id = false := by
  induction l with
  | nil => simp [firstTrue]
  | cons b t ih =>
      cases b with
      | true => simp [firstTrue]
      | false => simp [firstTrue, ih]

/-- `_get_corner` implements first-eligible selection. -/
theorem _get_corner_eq (valid : List Bool) (in_x in_y : List RF)
    (idx_ref : List Nat) :
    _get_corner valid in_x in_y idx_ref =
      spec_first_eligible valid in_x in_y idx_ref := by
  unfold _get_corner argmaxBool spec_first_eligible
  cases hf : firstTrue valid with
  | none =>
      have hany : valid.any id = false := (firstTrue_none_iff valid).mp hf
      simp [hf, hany]
  | some j =>
      have hany : valid.any id = true := by
        cases h : valid.any id
        · rw [(firstTrue_none_iff valid).mpr h] at hf
          cases hf
        · rfl
      simp [hf, hany]

/-- C3 counterexample: the claim classifies candidates by the offsets
`(candidate - target)`, making a candidate with offset x > 0 and y < 0
eligible as the upper-left corner.  With target `(0, 0)` and the single
candidate `(1, -1)` that offset is `(1, -1)`, so the claim selects the
candidate as the upper-left corner; the code instead computes
`x_diff = out_x - in_x = -1` and `y_diff = out_y - in_y = 1`, leaves the
upper-left corner absent (NaN coordinates) and selects this candidate as
the lower-right corner. -/
theorem c3_counterexample :
    ((RF.fin 1).gt (RF.fin 0) && (RF.fin (-1)).lt (RF.fin 0)) = true ∧
    _get_bounding_corners [RF.fin 1] [RF.fin (-1)] (RF.fin 0) (RF.fin 0)
      [9] =
      (⟨RF.nan, RF.nan⟩, ⟨RF.nan, RF.nan⟩, ⟨RF.nan, RF.nan⟩,
        ⟨RF.fin 1, RF.fin (-1)⟩, (9, 9, 9, 9)) := by
  with_unfolding_all decide

/-- C3 amended: corner selection classifies candidates by the planar
offsets `(target_x - candidate_x, target_y - candidate_y)` (not
candidate-minus-target as claimed): a candidate is eligible as the
upper-left corner exactly when that offset satisfies x > 0 and y < 0, as
the upper-right corner when x < 0 and y < 0, as the lower-left corner when
x > 0 and y > 0, and as the lower-right corner when x < 0 and y > 0;
within a quadrant the first eligible candidate in the given ordering is
selected. -/
theorem c3_amended (in_x in_y : List RF) (out_x out_y : RF)
    (idx_ref : List Nat) :
    _get_bounding_corners in_x in_y out_x out_y idx_ref =
      (let offs := (in_x.zip in_y).map fun c =>
        (out_x - c.1, out_y - c.2)
       let c_1 := spec_first_eligible
         (offs.map fun d => spec_elig_ul d.1 d.2) in_x in_y idx_ref
       let c_2 := spec_first_eligible
         (offs.map fun d => spec_elig_ur d.1 d.2) in_x in_y idx_ref
       let c_3 := spec_first_eligible
         (offs.map fun d => spec_elig_ll d.1 d.2) in_x in_y idx_ref
       let c_4 := spec_first_eligible
         (offs.map fun d => spec_elig_lr d.1 d.2) in_x in_y idx_ref
       (⟨c_1.1, c_1.2.1⟩, ⟨c_2.1, c_2.2.1⟩, ⟨c_3.1, c_3.2.1⟩,
         ⟨c_4.1, c_4.2.1⟩,
         (c_1.2.2, c_2.2.2, c_3.2.2, c_4.2.2))) := by
  unfold _get_bounding_corners spec_elig_ul spec_elig_ur spec_elig_ll
    spec_elig_lr
  simp only [_get_corner_eq]

/-- C4 counterexample: with no candidate in the quadrant the code records
NaN coordinates but stores `idx_ref[0]` — here 5, the first candidate's
true source index, present in the index-reference row — not an index
designating an invalid slot. -/
theorem c4_counterexample :
    _get_corner [false, false] [RF.fin 1, RF.fin 2] [RF.fin 3, RF.fin 4]
      [5, 7] = (RF.nan, RF.nan, 5) ∧ (5 : Nat) ∈ [5, 7] := by
  with_unfolding_all decide

/-- C4 amended: for a quadrant with no eligible candidate, the corner
coordinates are recorded as NaN, but the stored index is the
index-reference entry at position 0 (the argmax of an all-false mask) — a
true source index; invalidity is carried downstream only by the NaN
coordinates. -/
theorem c4_amended (valid : List Bool) (in_x in_y : List RF)
    (idx_ref : List Nat) (h : valid.any id = false) :
    _get_corner valid in_x in_y idx_ref =
      (RF.nan, RF.nan, idx_ref.getD 0 0) := by
  rw [_get_corner_eq]
  unfold spec_first_eligible
  rw [(firstTrue_none_iff valid).mpr h]

/-- C4 witness: the amended statement at a concrete all-false mask,
through the theorem itself. -/
theorem c4_amended_witness :
    _get_corner [false, false, false] [RF.fin 1, RF.fin 2, RF.fin 3]
      [RF.fin 4, RF.fin 5, RF.fin 6] [2, 0, 1] = (RF.nan, RF.nan, 2) :=
  c4_amended [false, false, false] [RF.fin 1, RF.fin 2, RF.fin 3]
    [RF.fin 4, RF.fin 5, RF.fin 6] [2, 0, 1] (by decide)

/-- C5 counterexample: reduced data `[0, 10, 20]` of which only the values
`10` and `20` are referenced by corners.  The claim's bounds would be
`[10, 20]`, so the interpolation result `5` (strictly below the referenced
minimum) would be masked out; the code computes its bounds over the whole
reduction `[0, 20]` before the corner gather and returns `5` unmasked. -/
theorem c5_counterexample :
    get_sample_from_bil_info
      ⟨[RF.fin 0, RF.fin 10, RF.fin 20], some [false, false, false]⟩
      ⟨[RF.fin 0], some [false]⟩ ⟨[RF.fin (-1/2)], some [false]⟩
      [true, true, true] [(1, 2, 1, 2)] =
      Except.ok ⟨[RF.fin 5], some [false]⟩ ∧
    (RF.fin 5).lt (nanmin (spec_referenced_reduced
      (boolSelect [RF.fin 0, RF.fin 10, RF.fin 20] [true, true, true])
      [(1, 2, 1, 2)])) = true := by
  with_unfolding_all decide

/-- C5 amended: the extrapolation-guard bounds are the NaN-ignoring
minimum and maximum over the whole reduced source data `data[input_idxs]`
(computed before the corner gather, whether or not every reduced value is
referenced by some corner), and the returned mask flags every result
strictly below that minimum or strictly above that maximum, every NaN
result, and every element already masked in the inputs. -/
theorem c5_amended (data t__ s__ : NpArr) (input_idxs : List Bool)
    (idx_arr : List (Nat × Nat × Nat × Nat))
    (hm : (data.mask.isNone && t__.mask.isNone && s__.mask.isNone)
      = false) :
    get_sample_from_bil_info data t__ s__ input_idxs idx_arr =
      Except.ok ⟨resultVals (boolSelect data.vals input_idxs) idx_arr
          t__.vals s__.vals,
        some (guardMask (nanmin (boolSelect data.vals input_idxs))
          (nanmax (boolSelect data.vals input_idxs))
          (resultVals (boolSelect data.vals input_idxs) idx_arr
            t__.vals s__.vals)
          (preMask data input_idxs idx_arr t__ s__))⟩ := by
  unfold get_sample_from_bil_info
  rw [hm]
  simp

/-- C5 witness: the amended statement at a concrete masked input, through
the theorem itself. -/
theorem c5_amended_witness :
    get_sample_from_bil_info ⟨[RF.fin 1], some [false]⟩
      ⟨[RF.fin 0], some [false]⟩ ⟨[RF.fin 0], some [false]⟩
      [true] [(0, 0, 0, 0)] =
      Except.ok ⟨resultVals (boolSelect [RF.fin 1] [true]) [(0, 0, 0, 0)]
          [RF.fin 0] [RF.fin 0],
        some (guardMask (nanmin (boolSelect [RF.fin 1] [true]))
          (nanmax (boolSelect [RF.fin 1] [true]))
          (resultVals (boolSelect [RF.fin 1] [true]) [(0, 0, 0, 0)]
            [RF.fin 0] [RF.fin 0])
          (preMask ⟨[RF.fin 1], some [false]⟩ [true] [(0, 0, 0, 0)]
            ⟨[RF.fin 0], some [false]⟩ ⟨[RF.fin 0], some [false]⟩))⟩ :=
  c5_amended ⟨[RF.fin 1], some [false]⟩ ⟨[RF.fin 0], some [false]⟩
    ⟨[RF.fin 0], some [false]⟩ [true] [(0, 0, 0, 0)] (by decide)

/-- C10 counterexample: a plain (unmasked) data array whose reduction is
not a masked array, applied with masked `t__` and `s__` (the arrays
`get_bil_info` returns under `masked=True`): the interpolation result is a
masked array, the `mask` read succeeds, and the call returns normally —
no `AttributeError` — refuting the claim that every such data array makes
the call raise. -/
theorem c10_counterexample :
    (⟨[RF.fin 1, RF.fin 2], none⟩ : NpArr).mask = none ∧
    get_sample_from_bil_info ⟨[RF.fin 1, RF.fin 2], none⟩
      ⟨[RF.fin 0], some [false]⟩ ⟨[RF.fin 0], some [false]⟩
      [true, true] [(0, 1, 0, 1)] =
      Except.ok ⟨[RF.fin 1], some [false]⟩ := by
  with_unfolding_all decide

/-- C10 amended: `get_sample_from_bil_info` reads the `mask` attribute of
the interpolation result; the call raises `AttributeError` exactly when
`data`, `t__` and `s__` are all plain ndarrays (so the result is a plain
ndarray without that attribute), and returns a masked result whenever any
of the three inputs carries a mask — in particular the no-exception NaN
policy holds whenever the reduced data or either fractional-coordinate
array is masked. -/
theorem c10_amended (data t__ s__ : NpArr) (input_idxs : List Bool)
    (idx_arr : List (Nat × Nat × Nat × Nat)) :
    ((data.mask = none ∧ t__.mask = none ∧ s__.mask = none) →
      get_sample_from_bil_info data t__ s__ input_idxs idx_arr =
        Except.error "AttributeError") ∧
    ((data.mask ≠ none ∨ t__.mask ≠ none ∨ s__.mask ≠ none) →
      ∃ out, get_sample_from_bil_info data t__ s__ input_idxs idx_arr =
        Except.ok out) := by
  constructor
  · rintro ⟨h1, h2, h3⟩
    unfold get_sample_from_bil_info
    simp [h1, h2, h3]
  · intro h
    have hb : (data.mask.isNone && t__.mask.isNone && s__.mask.isNone)
        = false := by
      rcases h with h | h | h
      · cases hd : data.mask
        · exact absurd hd h
        · simp [hd]
      · cases hd : t__.mask
        · exact absurd hd h
        · simp [hd]
      · cases hd : s__.mask
        · exact absurd hd h
        · simp [hd]
    unfold get_sample_from_bil_info
    rw [hb]
    exact ⟨_, rfl⟩

/-- C10 witness: both directions of the amended statement at concrete
inputs, through the theorem itself. -/
theorem c10_amended_witness :
    get_sample_from_bil_info ⟨[RF.fin 3], none⟩ ⟨[RF.fin 0], none⟩
      ⟨[RF.fin 0], none⟩ [true] [(0, 0, 0, 0)] =
      Except.error "AttributeError" ∧
    (∃ out, get_sample_from_bil_info ⟨[RF.fin 3], some [false]⟩
      ⟨[RF.fin 0], none⟩ ⟨[RF.fin 0], none⟩ [true] [(0, 0, 0, 0)] =
      Except.ok out) :=
  ⟨(c10_amended ⟨[RF.fin 3], none⟩ ⟨[RF.fin 0], none⟩ ⟨[RF.fin 0], none⟩
      [true] [(0, 0, 0, 0)]).1 ⟨rfl, rfl, rfl⟩,
    (c10_amended ⟨[RF.fin 3], some [false]⟩ ⟨[RF.fin 0], none⟩
      ⟨[RF.fin 0], none⟩ [true] [(0, 0, 0, 0)]).2 (Or.inl (by simp))⟩

theorem RF.add_def (x y : RF) : x + y = RF.add x y := rfl

theorem RF.sub_def (x y : RF) : x - y = RF.sub x y := rfl

theorem RF.mul_def (x y : RF) : x * y = RF.mul x y := rfl

theorem RF.div_def (x y : RF) : x / y = RF.div x y := rfl

theorem RF.neg_def (x : RF) : -x = RF.neg x := rfl

/-- Division by (positive) zero yields NaN or an infinity, never a finite
value. -/
theorem RF.div_fin_zero_cases (x : RF) :
    RF.div x (RF.fin 0) = RF.nan ∨ RF.div x (RF.fin 0) = RF.pinf ∨
      RF.div x (RF.fin 0) = RF.ninf := by
  cases x with
  | fin p =>
      simp only [RF.div, if_pos rfl]
      split_ifs <;> simp
  | pinf =>
      simp only [RF.div]
      split_ifs <;> simp
  | ninf =>
      simp only [RF.div]
      split_ifs <;> simp
  | nan => simp [RF.div]

/-- A degenerate quadratic (`a = 0`) always resolves to NaN: both
computed roots are NaN or infinities, and neither passes the interval
filter. -/
theorem solve_quadratic_zero_a (b__ c__ : RF) (lo hi : ℚ) :
    _solve_quadratic (RF.fin 0) b__ c__ (RF.fin lo) (RF.fin hi) =
      RF.nan := by
  unfold _solve_quadratic
  have hd : RF.fin 2 * RF.fin 0 = RF.fin 0 := by
    show RF.mul (RF.fin 2) (RF.fin 0) = RF.fin 0
    simp [RF.mul]
  dsimp only
  rw [hd]
  simp only [RF.div_def]
  rcases RF.div_fin_zero_cases
    (-b__ + RF.sqrt (b__ * b__ - RF.fin 4 * RF.fin 0 * c__)) with
    h1 | h1 | h1 <;>
  rcases RF.div_fin_zero_cases
    (-b__ - RF.sqrt (b__ * b__ - RF.fin 4 * RF.fin 0 * c__)) with
    h2 | h2 | h2 <;>
  rw [h1, h2] <;> simp [RF.lt, RF.gt]

/-- C6 counterexample: the unit square is an exact parallelogram (both
parallel tests hold); at the centre target the irregular solver returns
`(NaN, NaN)` (its quadratic coefficient is exactly zero, and division by
zero invalidates both roots) while the dedicated parallelogram solver
returns `(1/2, 1/2)` — not identical within any numeric tolerance. -/
theorem c6_counterexample :
    _find_vert_parallels ⟨RF.fin 0, RF.fin 1⟩ ⟨RF.fin 1, RF.fin 1⟩
      ⟨RF.fin 0, RF.fin 0⟩ ⟨RF.fin 1, RF.fin 0⟩ = true ∧
    _find_horiz_parallels ⟨RF.fin 0, RF.fin 1⟩ ⟨RF.fin 1, RF.fin 1⟩
      ⟨RF.fin 0, RF.fin 0⟩ ⟨RF.fin 1, RF.fin 0⟩ = true ∧
    _get_ts_irregular ⟨RF.fin 0, RF.fin 1⟩ ⟨RF.fin 1, RF.fin 1⟩
      ⟨RF.fin 0, RF.fin 0⟩ ⟨RF.fin 1, RF.fin 0⟩
      (RF.fin (1/2)) (RF.fin (1/2)) = (RF.nan, RF.nan) ∧
    _get_ts_parallellogram ⟨RF.fin 0, RF.fin 1⟩ ⟨RF.fin 1, RF.fin 1⟩
      ⟨RF.fin 0, RF.fin 0⟩ (RF.fin (1/2)) (RF.fin (1/2)) =
      (RF.fin (1/2), RF.fin (1/2)) := by
  with_unfolding_all decide

/-- C6 amended: for every quadrilateral with finite corners that is an
exact parallelogram (`p4 - p2 = p3 - p1` component-wise) and every target
point, the general irregular solver does not reproduce the parallelogram
solver's finite linear solution: its quadratic coefficient `a` is exactly
zero, so it returns NaN for both `t` and `s`.  Consistency between the
branches is ensured only by classification, which routes exact
parallelograms to `_get_ts_parallellogram`. -/
theorem c6_amended (x1 y1 x2 y2 x3 y3 x4 y4 : ℚ) (out_y out_x : RF)
    (hx : x4 - x2 = x3 - x1) (hy : y4 - y2 = y3 - y1) :
    _get_ts_irregular ⟨RF.fin x1, RF.fin y1⟩ ⟨RF.fin x2, RF.fin y2⟩
      ⟨RF.fin x3, RF.fin y3⟩ ⟨RF.fin x4, RF.fin y4⟩ out_y out_x =
      (RF.nan, RF.nan) := by
  unfold _get_ts_irregular
  dsimp only
  have hx' : x4 + -x2 = x3 + -x1 := by linarith
  have hy' : y4 + -y2 = y3 + -y1 := by linarith
  have ha : (RF.fin x3 - RF.fin x1) * (RF.fin y4 - RF.fin y2) -
      (RF.fin y3 - RF.fin y1) * (RF.fin x4 - RF.fin x2) = RF.fin 0 := by
    simp only [RF.sub_def, RF.mul_def, RF.sub, RF.add, RF.neg, RF.mul]
    rw [hx', hy']
    congr 1
    ring
  rw [ha, solve_quadratic_zero_a]
  simp

/-- C6 witness: the amended statement at the unit square, through the
theorem itself. -/
theorem c6_amended_witness :
    _get_ts_irregular ⟨RF.fin 0, RF.fin 1⟩ ⟨RF.fin 1, RF.fin 1⟩
      ⟨RF.fin 0, RF.fin 0⟩ ⟨RF.fin 1, RF.fin 0⟩
      (RF.fin (1/3)) (RF.fin (2/3)) = (RF.nan, RF.nan) :=
  c6_amended 0 1 1 1 0 0 1 0 (RF.fin (1/3)) (RF.fin (2/3))
    (by simp) (by simp)

/-- C8: evaluation at the failing input.  The quadrilateral
`p1 = (0, 10)`, `p2 = (10, 10)`, `p3 = (2, 0)`, `p4 = (12, 0)` is an exact
parallelogram and the target coincides with corner `p3`, so the claim
requires `(t, s) = (1, 0)` and exact reproduction of `p3`'s data value.
Instead the program raises `IndexError` from `out_y[idxs, :]` on the 1-D
output coordinates (source line 249) before resolving any fractional
coordinates; and the parallelogram solver it was about to invoke carries
its own slip — `s` computed with `+ x_31 * t__` in place of
`- x_31 * t__` (source line 370) — so even in isolation it yields
`(1, 2/5)`, not `(1, 0)`.  Either way the corner value is not
reproduced. -/
theorem c8_corner_reproduction_eval :
    _get_ts ⟨RF.fin 0, RF.fin 10⟩ ⟨RF.fin 10, RF.fin 10⟩
      ⟨RF.fin 2, RF.fin 0⟩ ⟨RF.fin 12, RF.fin 0⟩ (RF.fin 2) (RF.fin 0) =
      Except.error "IndexError" ∧
    _get_ts_parallellogram ⟨RF.fin 0, RF.fin 10⟩ ⟨RF.fin 10, RF.fin 10⟩
      ⟨RF.fin 2, RF.fin 0⟩ (RF.fin 0) (RF.fin 2) =
      (RF.fin 1, RF.fin (2/5)) := by
  with_unfolding_all decide

/-- Membership in an insertion step. -/
theorem mem_insertByDist (a x : ℚ × Nat) (l : List (ℚ × Nat)) :
    x ∈ insertByDist a l ↔ x = a ∨ x ∈ l := by
  induction l with
  | nil => simp [insertByDist]
  | cons b t ih =>
      simp only [insertByDist]
      split_ifs
      · simp [List.mem_cons]
      · simp only [List.mem_cons, ih]
        tauto

/-- The insertion sort preserves the members. -/
theorem mem_sortByDist (x : ℚ × Nat) (l : List (ℚ × Nat)) :
    x ∈ sortByDist l ↔ x ∈ l := by
  induction l with
  | nil => simp [sortByDist]
  | cons a t ih =>
      simp only [sortByDist, mem_insertByDist, List.mem_cons, ih]

/-- Every index entry of a neighbour-search row is at most the sentinel
`src.length`. -/
theorem neighbour_row_entry_le (src tgt : List (ℚ × ℚ)) (radius : ℚ)
    (neighbours : Nat) (row : List Nat)
    (hrow : row ∈ (get_neighbour_info src tgt radius neighbours).2)
    (i : Nat) (hi : i ∈ row) : i ≤ src.length := by
  unfold get_neighbour_info at hrow
  simp only [List.mem_map] at hrow
  obtain ⟨t, -, hteq⟩ := hrow
  rw [← hteq] at hi
  rcases List.mem_append.mp hi with h | h
  · have h' := List.take_subset _ _ h
    obtain ⟨d, hd, hdi⟩ := List.mem_map.mp h'
    have hd' : d ∈ (List.range src.length).map fun j =>
        (sqDist (src.getD j (0, 0)).1 (src.getD j (0, 0)).2 t.1 t.2, j) :=
      List.mem_of_mem_filter ((mem_sortByDist d _).mp hd)
    obtain ⟨j, hj, hdj⟩ := List.mem_map.mp hd'
    have : d.2 = j := by rw [← hdj]
    rw [← hdi, this]
    exact Nat.le_of_lt (List.mem_range.mp hj)
  · have := List.eq_of_mem_replicate h
    omega

/-- Filtering an all-true list by the identity keeps it. -/
theorem filter_id_replicate_true (n : Nat) :
    (List.replicate n true).filter id = List.replicate n true := by
  induction n with
  | zero => rfl
  | succ k ih => simp [List.replicate_succ, List.filter_cons, ih]

/-- Boolean selection by an all-true mask keeps the list. -/
theorem boolSelect_all_true {α : Type} (l : List α) (n : Nat)
    (h : n = l.length) : boolSelect l (List.replicate n true) = l := by
  subst h
  induction l with
  | nil => rfl
  | cons a t ih =>
      simp only [List.length_cons, List.replicate_succ, boolSelect,
        List.zip_cons_cons, List.filter_cons, List.map_cons]
      simpa [boolSelect] using ih

/-- Bounded fancy indexing succeeds. -/
theorem mapGetE_ok {α : Type} (xs : List α) (is : List Nat)
    (h : ∀ i ∈ is, i < xs.length) :
    ∃ vs, mapGetE xs is = Except.ok vs := by
  induction is with
  | nil => exact ⟨[], rfl⟩
  | cons i rest ih =>
      obtain ⟨vs, hvs⟩ := ih fun j hj => h j (List.mem_cons_of_mem _ hj)
      have hi : i < xs.length := h i (List.mem_cons_self _ _)
      refine ⟨xs.get ⟨i, hi⟩ :: vs, ?_⟩
      simp only [mapGetE, getE, hi, dif_pos, hvs]
      rfl

/-- A map whose steps each succeed or fail with one fixed error either
succeeds or fails with that error. -/
theorem mapExcept_ok_or {α β : Type} (f : α → Except String β)
    (msg : String) (l : List α)
    (h : ∀ a ∈ l, (∃ b, f a = Except.ok b) ∨ f a = Except.error msg) :
    (∃ bs, mapExcept f l = Except.ok bs) ∨
      mapExcept f l = Except.error msg := by
  induction l with
  | nil => exact Or.inl ⟨[], rfl⟩
  | cons a rest ih =>
      rcases h a (List.mem_cons_self _ _) with ⟨b, hb⟩ | hb
      · rcases ih (fun x hx => h x (List.mem_cons_of_mem _ hx)) with
          ⟨bs, hbs⟩ | hbs
        · refine Or.inl ⟨b :: bs, ?_⟩
          simp only [mapExcept, hb, hbs]
          rfl
        · refine Or.inr ?_
          simp only [mapExcept, hb, hbs]
          rfl
      · refine Or.inr ?_
        simp only [mapExcept, hb]
        rfl

/-- `_get_ts` has exactly two outcomes: a fractional-coordinate pair from
the irregular branch, or the vertical-parallel `IndexError`. -/
theorem _get_ts_cases (pt_1 pt_2 pt_3 pt_4 : Pt) (out_x out_y : RF) :
    (∃ ts, _get_ts pt_1 pt_2 pt_3 pt_4 out_x out_y = Except.ok ts) ∨
      _get_ts pt_1 pt_2 pt_3 pt_4 out_x out_y =
        Except.error "IndexError" := by
  unfold _get_ts
  dsimp only
  split_ifs <;> simp

/-- The per-target step with in-bounds index-reference entries either
succeeds or fails with the vertical-parallel `IndexError` — no other
failure occurs. -/
theorem bil_target_point_ok_or (in_lons in_lats : List ℚ)
    (p : (ℚ × ℚ) × List Nat)
    (hx : ∀ i ∈ p.2, i < in_lons.length)
    (hy : ∀ i ∈ p.2, i < in_lats.length) :
    (∃ b, bil_target_point in_lons in_lats p = Except.ok b) ∨
      bil_target_point in_lons in_lats p = Except.error "IndexError" := by
  obtain ⟨vx, hvx⟩ := mapGetE_ok in_lons p.2 hx
  obtain ⟨vy, hvy⟩ := mapGetE_ok in_lats p.2 hy
  set bc := _get_bounding_corners (vx.map RF.fin) (vy.map RF.fin)
    (RF.fin p.1.1) (RF.fin p.1.2) p.2 with hbc
  have key : bil_target_point in_lons in_lats p =
      Except.bind (_get_ts bc.1 bc.2.1 bc.2.2.1 bc.2.2.2.1
        (RF.fin p.1.1) (RF.fin p.1.2))
        (fun ts => Except.ok (ts.1, ts.2, bc.2.2.2.2)) := by
    rw [hbc]
    unfold bil_target_point
    dsimp only
    rw [hvx, hvy]
    rfl
  rw [key]
  rcases _get_ts_cases bc.1 bc.2.1 bc.2.2.1 bc.2.2.2.1 (RF.fin p.1.1)
    (RF.fin p.1.2) with ⟨ts, hts⟩ | hts <;> rw [hts]
  · exact Or.inl ⟨_, rfl⟩
  · exact Or.inr rfl

/-- C9 counterexample: called with `neighbours = 3 < 4` on a 2 x 2 source
grid, `get_bil_info` returns normally — `Except.ok`, not a raised error —
with NaN fractional coordinates for the target point whose upper-right
quadrant has no candidate among the three neighbours.  The boundary
contract violation is not surfaced as a hard failure; it degrades to
NaN. -/
theorem c9_counterexample :
    get_bil_info [(0, 10), (10, 10), (0, 0), (10, 0)] [(4, 4)] 1000 3 =
      Except.ok ⟨[RF.nan], [RF.nan], [true, true, true, true],
        [(0, 2, 2, 3)]⟩ := by
  with_unfolding_all decide

/-- C9 amended: `get_bil_info` performs no validation of
`neighbour_count` and never surfaces a neighbour-count hard failure: for
every nonempty source grid and every `neighbours` value — including every
value below 4 — the call either completes normally, with target points
whose quadrants lack candidates degraded to NaN fractional coordinates
(as the concrete `neighbours = 3` run shows), or fails with the
`IndexError` raised by the vertical-parallel branches of `_get_ts`, a
failure independent of the neighbour count. -/
theorem c9_amended (src tgt : List (ℚ × ℚ)) (radius : ℚ)
    (neighbours : Nat) (hsrc : 0 < src.length) :
    (∃ out, get_bil_info src tgt radius neighbours = Except.ok out) ∨
      get_bil_info src tgt radius neighbours =
        Except.error "IndexError" := by
  unfold get_bil_info
  have hinput : (get_neighbour_info src tgt radius neighbours).1 =
      List.replicate src.length true := rfl
  have hsize : (((get_neighbour_info src tgt radius neighbours).1.filter
      id).length) = src.length := by
    rw [hinput, filter_id_replicate_true, List.length_replicate]
  have hlons : boolSelect (src.map fun p => p.1)
      (get_neighbour_info src tgt radius neighbours).1 =
      src.map fun p => p.1 := by
    rw [hinput]
    exact boolSelect_all_true _ _ (List.length_map _ _).symm
  have hlats : boolSelect (src.map fun p => p.2)
      (get_neighbour_info src tgt radius neighbours).1 =
      src.map fun p => p.2 := by
    rw [hinput]
    exact boolSelect_all_true _ _ (List.length_map _ _).symm
  dsimp only
  rw [hsize, hlons, hlats]
  have hstep : ∀ p ∈ tgt.zip
      ((get_neighbour_info src tgt radius neighbours).2.map fun row =>
        row.map fun i => if i = src.length then 0 else i),
      (∃ b, bil_target_point (src.map fun q => q.1)
        (src.map fun q => q.2) p = Except.ok b) ∨
      bil_target_point (src.map fun q => q.1) (src.map fun q => q.2) p =
        Except.error "IndexError" := by
    intro p hp
    obtain ⟨t, row⟩ := p
    have hrow : row ∈
        (get_neighbour_info src tgt radius neighbours).2.map fun r =>
          r.map fun i => if i = src.length then 0 else i :=
      (List.of_mem_zip hp).2
    obtain ⟨row0, hrow0, hroweq⟩ := List.mem_map.mp hrow
    have hbound : ∀ i ∈ row, i < src.length := by
      intro i hi
      rw [← hroweq] at hi
      obtain ⟨j, hj, hji⟩ := List.mem_map.mp hi
      have hj' : j ≤ src.length :=
        neighbour_row_entry_le src tgt radius neighbours row0 hrow0 j hj
      by_cases hjs : j = src.length
      · rw [← hji]
        simp [hjs, hsrc]
      · rw [← hji]
        simp only [hjs, if_false]
        omega
    exact bil_target_point_ok_or _ _ (t, row)
      (by simpa using hbound) (by simpa using hbound)
  rcases mapExcept_ok_or (bil_target_point (src.map fun q => q.1)
      (src.map fun q => q.2)) "IndexError" _ hstep with ⟨bs, hbs⟩ | hbs <;>
    rw [hbs]
  · exact Or.inl ⟨_, rfl⟩
  · exact Or.inr rfl

/-- C9 witness: the amended statement at a concrete grid with
`neighbours = 2`, through the theorem itself. -/
theorem c9_amended_witness :
    (∃ out, get_bil_info [(0, 0), (0, 1), (1, 0), (1, 1)] [(1/2, 1/2)]
      10 2 = Except.ok out) ∨
    get_bil_info [(0, 0), (0, 1), (1, 0), (1, 1)] [(1/2, 1/2)] 10 2 =
      Except.error "IndexError" :=
  c9_amended [(0, 0), (0, 1), (1, 0), (1, 1)] [(1/2, 1/2)] 10 2
    (by decide)
